import Mathlib

/-!
Shallow embedding of the IAM policy generator chatbot's core
(`src/policy_validator.py`): the JSON data model, the Python dynamic
operations the validator relies on (`in` membership, subscripting),
the `PolicyValidator.validate_policy` rule engine, and the
`extract_policy_from_text` extractor, together with theorems settling
the specification claims.
-/

/-- Decoded JSON values, as produced by Python's `json.loads` (object keys
are always strings there); also covers values passed to the validator
directly as Python objects. Numeric payloads are irrelevant to every rule,
so numbers carry an `Int`. -/
inductive Json where
  | null : Json
  | bool : Bool → Json
  | num : Int → Json
  | str : String → Json
  | arr : List Json → Json
  | obj : List (String × Json) → Json

/-- Python exceptions that the validator body can raise (and that the
`except Exception` handler in `validate_policy` converts into a report). -/
inductive PyErr where
  | typeError : String → PyErr
  | keyError : String → PyErr

/-- Text of `str(e)` for the exception, as interpolated into the
"Validation error: ..." issue by `validate_policy`. -/
def PyErr.message : PyErr → String
  | .typeError m => m
  | .keyError k => "'" ++ k ++ "'"

/-- Validation results dictionary built by `validate_policy`
(`src/policy_validator.py` lines 54-58): keys "valid", "issues",
"recommendations". -/
structure Report where
  valid : Bool
  issues : List String
  recommendations : List String
deriving Repr, DecidableEq

/-- Python `kv.1 == k` key membership test `k in dict` for a decoded object. -/
def hasKey (kvs : List (String × Json)) (k : String) : Bool :=
  kvs.any (fun kv => kv.1 == k)

/-- Python `dict[k]` lookup for a decoded object (json-decoded dicts have
unique keys; first match is taken). -/
def lookupKey (kvs : List (String × Json)) (k : String) : Option Json :=
  match kvs with
  | [] => none
  | kv :: rest => if kv.1 == k then some kv.2 else lookupKey rest k

/-- Character-list prefix test: `litAt pat s` holds when `pat` occurs at the
head of `s`. -/
def litAt : List Char → List Char → Bool
  | [], _ => true
  | _ :: _, [] => false
  | p :: ps, c :: cs => p == c && litAt ps cs

/-- Index of the first occurrence of `pat` in `s` (leftmost match), as used
by Python's `re.search` position scan and by substring membership. -/
def strFind (pat : List Char) : List Char → Option Nat
  | [] => if litAt pat [] then some 0 else none
  | c :: rest => if litAt pat (c :: rest) then some 0 else (strFind pat rest).map (· + 1)

/-- Python substring membership `needle in hay` for strings. -/
def hasSub (needle hay : String) : Bool :=
  (strFind needle.data hay.data).isSome

/-- Python `x == "s"` comparison of an arbitrary decoded value with a string
literal: true exactly for the equal string (values of other types are never
`==` to a `str`). -/
def jsonIsStr (v : Json) (s : String) : Bool :=
  match v with
  | .str t => t == s
  | _ => false

/-- Python membership `k in v` for the decoded value `v`: key membership for
dicts, element equality for lists, substring test for strings, and a
`TypeError` for the non-iterable scalar types. -/
def pyContains (k : String) (v : Json) : Except PyErr Bool :=
  match v with
  | .obj kvs => .ok (hasKey kvs k)
  | .arr xs => .ok (xs.any (fun x => jsonIsStr x k))
  | .str s => .ok (hasSub k s)
  | .null => .error (.typeError "argument of type 'NoneType' is not iterable")
  | .bool _ => .error (.typeError "argument of type 'bool' is not iterable")
  | .num _ => .error (.typeError "argument of type 'int' is not iterable")

/-- Python subscript `v[k]` with a string key: dict lookup (KeyError when
absent), `TypeError` for lists, strings and scalars. -/
def pyIndex (v : Json) (k : String) : Except PyErr Json :=
  match v with
  | .obj kvs =>
    match lookupKey kvs k with
    | some j => .ok j
    | none => .error (.keyError k)
  | .arr _ => .error (.typeError "list indices must be integers or slices, not str")
  | .str _ => .error (.typeError "string indices must be integers")
  | .null => .error (.typeError "'NoneType' object is not subscriptable")
  | .bool _ => .error (.typeError "'bool' object is not subscriptable")
  | .num _ => .error (.typeError "'int' object is not subscriptable")

/-- Fixed list `self.overly_permissive_actions`
(`src/policy_validator.py` lines 12-20). -/
def overly_permissive_actions : List String :=
  ["*", "s3:*", "ec2:*", "iam:*", "dynamodb:*", "lambda:*", "cloudformation:*"]

/-- Fixed list `self.sensitive_actions` (`src/policy_validator.py` lines 23-34). -/
def sensitive_actions : List String :=
  ["iam:CreateUser", "iam:CreateRole", "iam:PutRolePolicy", "iam:AttachRolePolicy",
   "iam:AttachUserPolicy", "s3:PutBucketPolicy", "ec2:RunInstances",
   "lambda:CreateFunction", "kms:Decrypt", "secretsmanager:GetSecretValue"]

/-- Normalization `x if isinstance(x, list) else [x]` applied to the
`Statement`, `Action` and `Resource` values. -/
def toSeq (v : Json) : List Json :=
  match v with
  | .arr xs => xs
  | other => [other]

/-- Loop body of the overly-permissive check (`src/policy_validator.py`
lines 81-85): exact `in`-list match appends an issue and a recommendation
and clears the valid flag. -/
def permissiveStep (i : Nat) (r : Report) (a : Json) : Report :=
  match a with
  | .str s =>
    if overly_permissive_actions.contains s then
      { valid := false,
        issues := r.issues ++
          ["Statement " ++ toString (i + 1) ++ " contains overly permissive action: " ++ s],
        recommendations := r.recommendations ++
          ["Replace '" ++ s ++ "' with specific actions needed for the use case"] }
    else r
  | _ => r

/-- First `for action in actions` loop of a statement. -/
def permissivePass (i : Nat) (actions : List Json) (r : Report) : Report :=
  actions.foldl (permissiveStep i) r

/-- Loop body of the sensitive-action check (`src/policy_validator.py`
lines 88-91): appends an issue and a recommendation but never touches the
valid flag. -/
def sensitiveStep (i : Nat) (r : Report) (a : Json) : Report :=
  match a with
  | .str s =>
    if sensitive_actions.contains s then
      { r with
        issues := r.issues ++
          ["Statement " ++ toString (i + 1) ++ " contains sensitive action: " ++ s],
        recommendations := r.recommendations ++
          ["Review if '" ++ s ++ "' is absolutely necessary and consider adding conditions"] }
    else r
  | _ => r

/-- Second `for action in actions` loop of a statement. -/
def sensitivePass (i : Nat) (actions : List Json) (r : Report) : Report :=
  actions.foldl (sensitiveStep i) r

/-- Loop body of the wildcard-resource check (`src/policy_validator.py`
lines 97-101). -/
def resourceStep (i : Nat) (r : Report) (res : Json) : Report :=
  if jsonIsStr res "*" then
    { valid := false,
      issues := r.issues ++
        ["Statement " ++ toString (i + 1) ++ " applies to all resources ('*')"],
      recommendations := r.recommendations ++
        ["Specify exact resource ARNs instead of using '*'"] }
  else r

/-- The `for resource in resources` loop of a statement. -/
def resourcePass (i : Nat) (resources : List Json) (r : Report) : Report :=
  resources.foldl (resourceStep i) r

/-- Per-statement analysis, body of `for i, statement in enumerate(statements)`
(`src/policy_validator.py` lines 76-109), in the `Except` monad to model the
Python `TypeError`s raised on statements of unexpected type. -/
def checkStatement (i : Nat) (stmt : Json) (r : Report) : Except PyErr Report := do
  let hasAct ← pyContains "Action" stmt
  let r1 ←
    if hasAct then do
      let av ← pyIndex stmt "Action"
      pure (sensitivePass i (toSeq av) (permissivePass i (toSeq av) r))
    else pure r
  let hasRes ← pyContains "Resource" stmt
  let r2 ←
    if hasRes then do
      let rv ← pyIndex stmt "Resource"
      pure (resourcePass i (toSeq rv) r1)
    else
      pure { valid := false,
             issues := r1.issues ++
               ["Statement " ++ toString (i + 1) ++ " is missing 'Resource' field"],
             recommendations := r1.recommendations ++
               ["Add specific resource ARNs to the statement"] }
  let hasCond ← pyContains "Condition" stmt
  if hasCond then pure r2
  else
    pure { r2 with recommendations := r2.recommendations ++
      ["Consider adding conditions to Statement " ++ toString (i + 1) ++ " for additional security"] }

/-- The statement loop, threading the enumerate counter. -/
def checkStatements (i : Nat) (stmts : List Json) (r : Report) : Except PyErr Report :=
  match stmts with
  | [] => .ok r
  | s :: rest => do
    let r' ← checkStatement i s r
    checkStatements (i + 1) rest r'

/-- Report after the Version precheck (`src/policy_validator.py` lines 54-64),
depending on whether the policy has a `Version` key. -/
def initReport (hasVer : Bool) : Report :=
  if hasVer then { valid := true, issues := [], recommendations := [] }
  else
    { valid := false,
      issues := ["Missing 'Version' field in policy"],
      recommendations := ["Add 'Version': '2012-10-17' to the policy"] }

/-- Body of the `try` block of `validate_policy` after JSON decoding
(`src/policy_validator.py` lines 54-111): structural prechecks, the
missing-Statement early return, and the statement loop. -/
def validateBody (policy : Json) : Except PyErr Report := do
  let hasVer ← pyContains "Version" policy
  let r0 : Report := initReport hasVer
  let hasStmt ← pyContains "Statement" policy
  if hasStmt then do
    let sv ← pyIndex policy "Statement"
    checkStatements 0 (toSeq sv) r0
  else
    pure { valid := false,
           issues := r0.issues ++ ["Missing 'Statement' field in policy"],
           recommendations := r0.recommendations }

/-- Input of `validate_policy`: either a string argument on which
`json.loads` raises `JSONDecodeError`, or the decoded document (equally, a
Python object passed directly instead of a string). -/
inductive PolicyInput where
  | badString : PolicyInput
  | parsed : Json → PolicyInput

/-- Full `PolicyValidator.validate_policy` (`src/policy_validator.py`
lines 36-124) with its `except json.JSONDecodeError` and
`except Exception` handlers. -/
def validate_policy (input : PolicyInput) : Report :=
  match input with
  | .badString =>
    { valid := false,
      issues := ["Invalid JSON format"],
      recommendations := ["Check the policy syntax for errors"] }
  | .parsed j =>
    match validateBody j with
    | .ok r => r
    | .error e =>
      { valid := false,
        issues := ["Validation error: " ++ e.message],
        recommendations := ["Review the policy structure"] }

/-- Whitespace characters that Python's `json.loads` skips between tokens. -/
def jsonWsChar (c : Char) : Bool :=
  c == ' ' || c == '\t' || c == '\n' || c == '\r'

/-- ASCII whitespace of Python's regex `\s` class and of `str.strip`. -/
def pySpaceChar (c : Char) : Bool :=
  c == ' ' || c == '\t' || c == '\n' || c == '\r' || c == '\x0b' || c == '\x0c'

/-- Python `str.strip()`: drop leading and trailing whitespace. -/
def pyStrip (s : List Char) : List Char :=
  ((s.dropWhile pySpaceChar).reverse.dropWhile pySpaceChar).reverse

/-- Hexadecimal digit test for `\u` escapes. -/
def isHexChar (c : Char) : Bool :=
  c.isDigit || ('a' ≤ c && c ≤ 'f') || ('A' ≤ c && c ≤ 'F')

/-- JSON string body scanner: consumes characters after the opening quote up
to and including the closing quote, checking escapes, and returns the
remainder; `none` on a malformed string. -/
def jsonStrTail : List Char → Option (List Char)
  | [] => none
  | '"' :: rest => some rest
  | '\\' :: rest =>
    match rest with
    | [] => none
    | e :: rest2 =>
      if e == '"' || e == '\\' || e == '/' || e == 'b' || e == 'f' ||
         e == 'n' || e == 'r' || e == 't' then jsonStrTail rest2
      else if e == 'u' then
        match rest2 with
        | a :: b :: c :: d :: rest3 =>
          if isHexChar a && isHexChar b && isHexChar c && isHexChar d then jsonStrTail rest3
          else none
        | _ => none
      else none
  | c :: rest => if c.toNat < 32 then none else jsonStrTail rest

/-- Exponent part of a JSON number after the `e`: `orig` is returned when the
exponent is malformed (the number token ends before the `e`, as Python's
number regex does). -/
def jsonExpTail (orig : List Char) (r : List Char) : List Char :=
  let r2 := match r with
    | '+' :: q => q
    | '-' :: q => q
    | _ => r
  match r2 with
  | c :: q => if c.isDigit then q.dropWhile Char.isDigit else orig
  | [] => orig

/-- Optional fraction and exponent of a JSON number. -/
def jsonFracTail (s : List Char) : List Char :=
  match s with
  | '.' :: c :: r =>
    if c.isDigit then
      let r2 := r.dropWhile Char.isDigit
      match r2 with
      | 'e' :: q => jsonExpTail r2 q
      | 'E' :: q => jsonExpTail r2 q
      | _ => r2
    else '.' :: c :: r
  | 'e' :: q => jsonExpTail s q
  | 'E' :: q => jsonExpTail s q
  | _ => s

/-- JSON number token (Python `json` NUMBER_RE): optional minus, integer
part `0 | [1-9][0-9]*`, optional fraction, optional exponent. -/
def jsonNumTail (s : List Char) : Option (List Char) :=
  let s1 := match s with
    | '-' :: r => r
    | _ => s
  match s1 with
  | [] => none
  | c :: r =>
    if c == '0' then some (jsonFracTail r)
    else if c.isDigit then some (jsonFracTail (r.dropWhile Char.isDigit))
    else none

/-- Literal consumption: the expected characters `lit` must occur at the head
of `s`; returns the remainder. -/
def litTail (lit : List Char) (s : List Char) : Option (List Char) :=
  if litAt lit s then some (s.drop lit.length) else none

mutual

/-- One JSON value, fuel-indexed; consumes the value and returns the
remainder. Mirrors what Python's `json.loads` accepts, including the
default-enabled `NaN`, `Infinity` and `-Infinity` constants. -/
def jsonVal : Nat → List Char → Option (List Char)
  | 0, _ => none
  | Nat.succ fuel, s =>
    match s with
    | '{' :: rest => jsonObjTail fuel (rest.dropWhile jsonWsChar)
    | '[' :: rest => jsonArrTail fuel (rest.dropWhile jsonWsChar)
    | '"' :: rest => jsonStrTail rest
    | 't' :: rest => litTail "rue".data rest
    | 'f' :: rest => litTail "alse".data rest
    | 'n' :: rest => litTail "ull".data rest
    | 'N' :: rest => litTail "aN".data rest
    | 'I' :: rest => litTail "nfinity".data rest
    | '-' :: 'I' :: rest => litTail "nfinity".data rest
    | _ => jsonNumTail s

/-- Object body after the opening brace and whitespace. -/
def jsonObjTail : Nat → List Char → Option (List Char)
  | 0, _ => none
  | Nat.succ fuel, s =>
    match s with
    | '}' :: rest => some rest
    | '"' :: rest =>
      match jsonStrTail rest with
      | none => none
      | some r1 =>
        match r1.dropWhile jsonWsChar with
        | ':' :: r3 =>
          match jsonVal fuel (r3.dropWhile jsonWsChar) with
          | none => none
          | some r4 => jsonMembersTail fuel (r4.dropWhile jsonWsChar)
        | _ => none
    | _ => none

/-- Continuation of an object after a complete member. -/
def jsonMembersTail : Nat → List Char → Option (List Char)
  | 0, _ => none
  | Nat.succ fuel, s =>
    match s with
    | '}' :: rest => some rest
    | ',' :: rest =>
      match rest.dropWhile jsonWsChar with
      | '"' :: r2 =>
        match jsonStrTail r2 with
        | none => none
        | some r3 =>
          match r3.dropWhile jsonWsChar with
          | ':' :: r4 =>
            match jsonVal fuel (r4.dropWhile jsonWsChar) with
            | none => none
            | some r5 => jsonMembersTail fuel (r5.dropWhile jsonWsChar)
          | _ => none
      | _ => none
    | _ => none

/-- Array body after the opening bracket and whitespace. -/
def jsonArrTail : Nat → List Char → Option (List Char)
  | 0, _ => none
  | Nat.succ fuel, s =>
    match s with
    | ']' :: rest => some rest
    | _ =>
      match jsonVal fuel s with
      | none => none
      | some r1 => jsonItemsTail fuel (r1.dropWhile jsonWsChar)

/-- Continuation of an array after a complete item. -/
def jsonItemsTail : Nat → List Char → Option (List Char)
  | 0, _ => none
  | Nat.succ fuel, s =>
    match s with
    | ']' :: rest => some rest
    | ',' :: rest =>
      match jsonVal fuel (rest.dropWhile jsonWsChar) with
      | none => none
      | some r1 => jsonItemsTail fuel (r1.dropWhile jsonWsChar)
    | _ => none

end

/-- Success of Python's `json.loads` on the character sequence: one JSON
value surrounded only by whitespace. The fuel bound `length + 1` suffices
because every recursive descent step consumes at least one character. -/
def jsonOk (s : List Char) : Bool :=
  match jsonVal (s.length + 1) (s.dropWhile jsonWsChar) with
  | some rest => (rest.dropWhile jsonWsChar).isEmpty
  | none => false

/-- Search of `re.search(r"` ```json\s*([\s\S]*?)\s*``` `", text)` modelled on
character lists: the first occurrence of the opening fence tag that is
followed by a closing fence yields the raw group-1 content (the text between
tag and closing fence; the surrounding `\s*` of the pattern is subsumed by
the `.strip()` the caller applies). -/
def fencedRaw : List Char → Option (List Char)
  | [] => none
  | c :: rest =>
    if litAt "```json".data (c :: rest) then
      let body := (c :: rest).drop 7
      match strFind "```".data body with
      | some q => some (body.take q)
      | none => fencedRaw rest
    else fencedRaw rest

/-- Search of `re.search(r"\{\s*\"Version\"[\s\S]*?\"Statement\"[\s\S]*?\}", text)`:
scanning left to right for an opening brace followed (after whitespace) by
the literal `"Version"`, then the nearest `"Statement"`, then the nearest
closing brace; returns the whole matched span (group 0). -/
def braceRaw : List Char → Option (List Char)
  | [] => none
  | c :: rest =>
    if c == '{' then
      let afterWs := rest.dropWhile pySpaceChar
      let w := rest.length - afterWs.length
      if litAt "\"Version\"".data afterWs then
        match strFind "\"Statement\"".data (afterWs.drop 9) with
        | some k =>
          match strFind ['}'] ((afterWs.drop 9).drop (k + 11)) with
          | some m => some (c :: rest.take (w + 9 + k + 11 + m + 1))
          | none => braceRaw rest
        | none => braceRaw rest
      else braceRaw rest
    else braceRaw rest

/-- Full `PolicyValidator.extract_policy_from_text`
(`src/policy_validator.py` lines 126-159). The surrounding `try`/bare
`except` means a `json.loads` failure anywhere returns `None` for the whole
call; in particular a fenced block whose content fails to parse yields
`None` without reaching the brace-scan strategy. -/
def extract_policy_from_text (text : String) : Option String :=
  match fencedRaw text.data with
  | some g =>
    let s := pyStrip g
    if jsonOk s then some (String.mk s) else none
  | none =>
    match braceRaw text.data with
    | some g =>
      let s := pyStrip g
      if jsonOk s then some (String.mk s) else none
    | none => none

/-! Helper lemmas: how a report evolves under the per-statement passes. -/

/-- Relation between a report and any report the rule engine derives from it:
issues and recommendations are only appended, the valid flag is never reset
to true, and the invariant "invalid implies some issue" is preserved. -/
def reportExt (r r' : Report) : Prop :=
  (∃ t, r'.issues = r.issues ++ t) ∧
  (∃ u, r'.recommendations = r.recommendations ++ u) ∧
  (r.valid = false → r'.valid = false) ∧
  ((r.valid = false → r.issues ≠ []) → (r'.valid = false → r'.issues ≠ []))

theorem reportExt_refl (r : Report) : reportExt r r :=
  ⟨⟨[], by simp⟩, ⟨[], by simp⟩, fun h => h, fun h => h⟩

theorem reportExt_trans {r1 r2 r3 : Report} (h12 : reportExt r1 r2) (h23 : reportExt r2 r3) :
    reportExt r1 r3 := by
  obtain ⟨⟨t1, ht1⟩, ⟨u1, hu1⟩, hv1, hi1⟩ := h12
  obtain ⟨⟨t2, ht2⟩, ⟨u2, hu2⟩, hv2, hi2⟩ := h23
  exact ⟨⟨t1 ++ t2, by simp [ht2, ht1]⟩, ⟨u1 ++ u2, by simp [hu2, hu1]⟩,
    fun h => hv2 (hv1 h), fun h => hi2 (hi1 h)⟩

theorem reportExt_permissiveStep (i : Nat) (r : Report) (a : Json) :
    reportExt r (permissiveStep i r a) := by
  unfold permissiveStep
  match a with
  | .null | .bool _ | .num _ | .arr _ | .obj _ => exact reportExt_refl r
  | .str s =>
    by_cases h : overly_permissive_actions.contains s
    · simp only [h, if_true]
      exact ⟨⟨_, rfl⟩, ⟨_, rfl⟩, fun _ => rfl, fun _ _ => by simp⟩
    · simp only [h, if_false]
      exact reportExt_refl r

theorem reportExt_sensitiveStep (i : Nat) (r : Report) (a : Json) :
    reportExt r (sensitiveStep i r a) := by
  unfold sensitiveStep
  match a with
  | .null | .bool _ | .num _ | .arr _ | .obj _ => exact reportExt_refl r
  | .str s =>
    by_cases h : sensitive_actions.contains s
    · simp only [h, if_true]
      exact ⟨⟨_, rfl⟩, ⟨_, rfl⟩, fun hv => hv, fun _ _ => by simp⟩
    · simp only [h, if_false]
      exact reportExt_refl r

theorem reportExt_resourceStep (i : Nat) (r : Report) (res : Json) :
    reportExt r (resourceStep i r res) := by
  unfold resourceStep
  by_cases h : jsonIsStr res "*"
  · simp only [h, if_true]
    exact ⟨⟨_, rfl⟩, ⟨_, rfl⟩, fun _ => rfl, fun _ _ => by simp⟩
  · simp only [h, if_false]
    exact reportExt_refl r

theorem reportExt_foldl {α : Type} (step : Report → α → Report)
    (hstep : ∀ r a, reportExt r (step r a)) :
    ∀ (xs : List α) (r : Report), reportExt r (xs.foldl step r) := by
  intro xs
  induction xs with
  | nil => intro r; exact reportExt_refl r
  | cons a rest ih =>
    intro r
    exact reportExt_trans (hstep r a) (ih (step r a))

theorem reportExt_permissivePass (i : Nat) (acts : List Json) (r : Report) :
    reportExt r (permissivePass i acts r) :=
  reportExt_foldl (permissiveStep i) (reportExt_permissiveStep i) acts r

theorem reportExt_sensitivePass (i : Nat) (acts : List Json) (r : Report) :
    reportExt r (sensitivePass i acts r) :=
  reportExt_foldl (sensitiveStep i) (reportExt_sensitiveStep i) acts r

theorem reportExt_resourcePass (i : Nat) (ress : List Json) (r : Report) :
    reportExt r (resourcePass i ress r) :=
  reportExt_foldl (resourceStep i) (reportExt_resourceStep i) ress r

theorem sensitivePass_valid (i : Nat) (acts : List Json) :
    ∀ r : Report, (sensitivePass i acts r).valid = r.valid := by
  induction acts with
  | nil => intro r; rfl
  | cons a rest ih =>
    intro r
    have hstep : (sensitiveStep i r a).valid = r.valid := by
      unfold sensitiveStep
      split
      · split <;> rfl
      · rfl
    calc (sensitivePass i (a :: rest) r).valid
        = (sensitivePass i rest (sensitiveStep i r a)).valid := rfl
      _ = (sensitiveStep i r a).valid := ih _
      _ = r.valid := hstep

theorem hasKey_eq_isSome (kvs : List (String × Json)) (k : String) :
    hasKey kvs k = (lookupKey kvs k).isSome := by
  induction kvs with
  | nil => rfl
  | cons kv rest ih =>
    simp only [hasKey, List.any_cons, lookupKey]
    by_cases h : kv.1 == k
    · simp [h]
    · simp only [h, Bool.false_or, if_neg (by simpa using h)]
      simpa [hasKey] using ih

/-- Action analysis of one statement restricted to a dict statement, as a
pure function (`src/policy_validator.py` lines 78-91). -/
def actionPhase (i : Nat) (sf : List (String × Json)) (r : Report) : Report :=
  match lookupKey sf "Action" with
  | some av => sensitivePass i (toSeq av) (permissivePass i (toSeq av) r)
  | none => r

/-- Resource analysis of one dict statement (`src/policy_validator.py`
lines 94-105). -/
def resourcePhase (i : Nat) (sf : List (String × Json)) (r : Report) : Report :=
  match lookupKey sf "Resource" with
  | some rv => resourcePass i (toSeq rv) r
  | none =>
    { valid := false,
      issues := r.issues ++
        ["Statement " ++ toString (i + 1) ++ " is missing 'Resource' field"],
      recommendations := r.recommendations ++
        ["Add specific resource ARNs to the statement"] }

/-- Condition check of one dict statement (`src/policy_validator.py`
lines 108-109). -/
def condPhase (i : Nat) (sf : List (String × Json)) (r : Report) : Report :=
  if hasKey sf "Condition" then r
  else
    { r with recommendations := r.recommendations ++
      ["Consider adding conditions to Statement " ++ toString (i + 1) ++ " for additional security"] }

/-- Per-statement analysis of a dict statement never raises; it is the
composition of the three pure phases. -/
def checkStatementObj (i : Nat) (sf : List (String × Json)) (r : Report) : Report :=
  condPhase i sf (resourcePhase i sf (actionPhase i sf r))

theorem checkStatement_obj (i : Nat) (sf : List (String × Json)) (r : Report) :
    checkStatement i (Json.obj sf) r = .ok (checkStatementObj i sf r) := by
  cases hA : lookupKey sf "Action" <;> cases hR : lookupKey sf "Resource" <;>
    simp [checkStatement, checkStatementObj, actionPhase, resourcePhase, condPhase,
      pyContains, pyIndex, hasKey_eq_isSome, hA, hR, Bind.bind, Except.bind, pure,
      Except.pure, apply_ite Except.ok]

theorem reportExt_actionPhase (i : Nat) (sf : List (String × Json)) (r : Report) :
    reportExt r (actionPhase i sf r) := by
  unfold actionPhase
  cases lookupKey sf "Action" with
  | none => exact reportExt_refl r
  | some av =>
    exact reportExt_trans (reportExt_permissivePass i (toSeq av) r)
      (reportExt_sensitivePass i (toSeq av) _)

theorem reportExt_resourcePhase (i : Nat) (sf : List (String × Json)) (r : Report) :
    reportExt r (resourcePhase i sf r) := by
  unfold resourcePhase
  cases lookupKey sf "Resource" with
  | none => exact ⟨⟨_, rfl⟩, ⟨_, rfl⟩, fun _ => rfl, fun _ _ => by simp⟩
  | some rv => exact reportExt_resourcePass i (toSeq rv) r

theorem reportExt_condPhase (i : Nat) (sf : List (String × Json)) (r : Report) :
    reportExt r (condPhase i sf r) := by
  unfold condPhase
  by_cases h : hasKey sf "Condition"
  · simp only [h, if_true]
    exact reportExt_refl r
  · simp only [h, if_false]
    exact ⟨⟨[], by simp⟩, ⟨_, rfl⟩, fun hv => hv, fun hi => hi⟩

theorem reportExt_checkStatementObj (i : Nat) (sf : List (String × Json)) (r : Report) :
    reportExt r (checkStatementObj i sf r) :=
  reportExt_trans (reportExt_actionPhase i sf r)
    (reportExt_trans (reportExt_resourcePhase i sf _) (reportExt_condPhase i sf _))

theorem reportExt_checkStatement {i : Nat} {stmt : Json} {r r' : Report}
    (h : checkStatement i stmt r = .ok r') : reportExt r r' := by
  match stmt with
  | .obj sf =>
    rw [checkStatement_obj] at h
    injection h with h
    rw [← h]
    exact reportExt_checkStatementObj i sf r
  | .null => simp [checkStatement, pyContains, Bind.bind, Except.bind] at h
  | .bool b => simp [checkStatement, pyContains, Bind.bind, Except.bind] at h
  | .num n => simp [checkStatement, pyContains, Bind.bind, Except.bind] at h
  | .str s =>
    simp only [checkStatement, pyContains, pyIndex, Bind.bind, Except.bind,
      pure, Except.pure] at h
    split at h
    · simp at h
    · split at h
      · simp at h
      · split at h
        · simp only [Except.ok.injEq] at h
          rw [← h]
          exact ⟨⟨_, rfl⟩, ⟨_, rfl⟩, fun _ => rfl, fun _ _ => by simp⟩
        · simp only [Except.ok.injEq] at h
          rw [← h]
          exact ⟨⟨_, rfl⟩, ⟨_, List.append_assoc _ _ _⟩, fun _ => rfl, fun _ _ => by simp⟩
  | .arr xs =>
    simp only [checkStatement, pyContains, pyIndex, Bind.bind, Except.bind,
      pure, Except.pure] at h
    split at h
    · simp at h
    · split at h
      · simp at h
      · split at h
        · simp only [Except.ok.injEq] at h
          rw [← h]
          exact ⟨⟨_, rfl⟩, ⟨_, rfl⟩, fun _ => rfl, fun _ _ => by simp⟩
        · simp only [Except.ok.injEq] at h
          rw [← h]
          exact ⟨⟨_, rfl⟩, ⟨_, List.append_assoc _ _ _⟩, fun _ => rfl, fun _ _ => by simp⟩

theorem reportExt_checkStatements :
    ∀ (stmts : List Json) (i : Nat) (r r' : Report),
      checkStatements i stmts r = .ok r' → reportExt r r' := by
  intro stmts
  induction stmts with
  | nil =>
    intro i r r' h
    injection h with h
    rw [← h]
    exact reportExt_refl r
  | cons s rest ih =>
    intro i r r' h
    simp only [checkStatements, Bind.bind] at h
    cases hc : checkStatement i s r with
    | error e => rw [hc] at h; simp [Except.bind] at h
    | ok r1 =>
      rw [hc] at h
      simp only [Except.bind] at h
      exact reportExt_trans (reportExt_checkStatement hc) (ih (i + 1) r1 r' h)

theorem reportExt_mem_issues {r r' : Report} (h : reportExt r r') {m : String}
    (hm : m ∈ r.issues) : m ∈ r'.issues := by
  obtain ⟨⟨t, ht⟩, _, _, _⟩ := h
  rw [ht]
  exact List.mem_append_left t hm

theorem reportExt_mem_recs {r r' : Report} (h : reportExt r r') {m : String}
    (hm : m ∈ r.recommendations) : m ∈ r'.recommendations := by
  obtain ⟨_, ⟨u, hu⟩, _, _⟩ := h
  rw [hu]
  exact List.mem_append_left u hm

/-- Matching an overly-permissive action inside the action loop clears the
valid flag and records the indexed issue, whatever else the loop does. -/
theorem permissivePass_trigger (i : Nat) :
    ∀ (acts : List Json) (s : String), Json.str s ∈ acts → s ∈ overly_permissive_actions →
      ∀ r : Report, (permissivePass i acts r).valid = false ∧
        ("Statement " ++ toString (i + 1) ++ " contains overly permissive action: " ++ s)
          ∈ (permissivePass i acts r).issues := by
  intro acts
  induction acts with
  | nil => intro s hmem; cases hmem
  | cons a rest ih =>
    intro s hmem hperm r
    rcases List.mem_cons.mp hmem with heq | htail
    · have hstep : permissiveStep i r a =
          { valid := false,
            issues := r.issues ++
              ["Statement " ++ toString (i + 1) ++ " contains overly permissive action: " ++ s],
            recommendations := r.recommendations ++
              ["Replace '" ++ s ++ "' with specific actions needed for the use case"] } := by
        rw [← heq]
        simp [permissiveStep, hperm]
      show (permissivePass i rest (permissiveStep i r a)).valid = false ∧
        _ ∈ (permissivePass i rest (permissiveStep i r a)).issues
      rw [hstep]
      obtain ⟨⟨t, ht⟩, _, hv, _⟩ := reportExt_permissivePass i rest
        { valid := false,
          issues := r.issues ++
            ["Statement " ++ toString (i + 1) ++ " contains overly permissive action: " ++ s],
          recommendations := r.recommendations ++
            ["Replace '" ++ s ++ "' with specific actions needed for the use case"] }
      refine ⟨hv rfl, ?_⟩
      rw [ht]
      exact List.mem_append_left t (List.mem_append_right _ (by simp))
    · exact ih s htail hperm (permissiveStep i r a)

/-- Matching a sensitive action inside the action loop records the indexed
issue and the review recommendation. -/
theorem sensitivePass_trigger (i : Nat) :
    ∀ (acts : List Json) (s : String), Json.str s ∈ acts → s ∈ sensitive_actions →
      ∀ r : Report,
        ("Statement " ++ toString (i + 1) ++ " contains sensitive action: " ++ s)
          ∈ (sensitivePass i acts r).issues ∧
        ("Review if '" ++ s ++ "' is absolutely necessary and consider adding conditions")
          ∈ (sensitivePass i acts r).recommendations := by
  intro acts
  induction acts with
  | nil => intro s hmem; cases hmem
  | cons a rest ih =>
    intro s hmem hsens r
    rcases List.mem_cons.mp hmem with heq | htail
    · have hstep : sensitiveStep i r a =
          { valid := r.valid,
            issues := r.issues ++
              ["Statement " ++ toString (i + 1) ++ " contains sensitive action: " ++ s],
            recommendations := r.recommendations ++
              ["Review if '" ++ s ++ "' is absolutely necessary and consider adding conditions"] } := by
        rw [← heq]
        simp [sensitiveStep, hsens]
      show _ ∈ (sensitivePass i rest (sensitiveStep i r a)).issues ∧
        _ ∈ (sensitivePass i rest (sensitiveStep i r a)).recommendations
      rw [hstep]
      have hext := reportExt_sensitivePass i rest
        { valid := r.valid,
          issues := r.issues ++
            ["Statement " ++ toString (i + 1) ++ " contains sensitive action: " ++ s],
          recommendations := r.recommendations ++
            ["Review if '" ++ s ++ "' is absolutely necessary and consider adding conditions"] }
      exact ⟨reportExt_mem_issues hext (List.mem_append_right _ (by simp)),
        reportExt_mem_recs hext (List.mem_append_right _ (by simp))⟩
    · exact ih s htail hsens (sensitiveStep i r a)

theorem checkStatements_obj_ok :
    ∀ (stmts : List Json), (∀ s ∈ stmts, ∃ f, s = Json.obj f) →
      ∀ (i : Nat) (r : Report), ∃ r', checkStatements i stmts r = .ok r' := by
  intro stmts
  induction stmts with
  | nil => intro _ i r; exact ⟨r, rfl⟩
  | cons s rest ih =>
    intro hobj i r
    obtain ⟨f, hf⟩ := hobj s (List.mem_cons_self s rest)
    subst hf
    obtain ⟨r', hr'⟩ := ih (fun t ht => hobj t (List.mem_cons_of_mem _ ht)) (i + 1)
      (checkStatementObj i f r)
    refine ⟨r', ?_⟩
    simp only [checkStatements, checkStatement_obj, Bind.bind, Except.bind]
    exact hr'

theorem checkStatements_trigger :
    ∀ (stmts : List Json), (∀ s ∈ stmts, ∃ f, s = Json.obj f) →
      ∀ (n : Nat) (sf : List (String × Json)) (av : Json) (s : String),
        stmts.get? n = some (Json.obj sf) →
        lookupKey sf "Action" = some av →
        Json.str s ∈ toSeq av → s ∈ overly_permissive_actions →
        ∀ (i : Nat) (r : Report), ∃ r', checkStatements i stmts r = .ok r' ∧
          r'.valid = false ∧
          ("Statement " ++ toString (i + n + 1) ++ " contains overly permissive action: " ++ s)
            ∈ r'.issues := by
  intro stmts
  induction stmts with
  | nil => intro _ n _ _ _ hget; simp at hget
  | cons s0 rest ih =>
    intro hobj n sf av s hget hlook hmem hperm i r
    have hobjRest : ∀ t ∈ rest, ∃ f, t = Json.obj f :=
      fun t ht => hobj t (List.mem_cons_of_mem _ ht)
    cases n with
    | zero =>
      have hs0 : s0 = Json.obj sf := by simpa using hget
      subst hs0
      have htrig := permissivePass_trigger i (toSeq av) s hmem hperm r
      have h1 : reportExt (permissivePass i (toSeq av) r) (checkStatementObj i sf r) := by
        have hAP : actionPhase i sf r =
            sensitivePass i (toSeq av) (permissivePass i (toSeq av) r) := by
          simp [actionPhase, hlook]
        unfold checkStatementObj
        rw [hAP]
        exact reportExt_trans (reportExt_sensitivePass i (toSeq av) _)
          (reportExt_trans (reportExt_resourcePhase i sf _) (reportExt_condPhase i sf _))
      obtain ⟨r', hr'⟩ := checkStatements_obj_ok rest hobjRest (i + 1) (checkStatementObj i sf r)
      have h3 : reportExt (permissivePass i (toSeq av) r) r' :=
        reportExt_trans h1 (reportExt_checkStatements rest (i + 1) _ r' hr')
      refine ⟨r', ?_, h3.2.2.1 htrig.1, ?_⟩
      · simp only [checkStatements, checkStatement_obj, Bind.bind, Except.bind]
        exact hr'
      · exact reportExt_mem_issues h3 htrig.2
    | succ m =>
      obtain ⟨f, hf⟩ := hobj s0 (List.mem_cons_self s0 rest)
      subst hf
      obtain ⟨r', hr', hv, hm⟩ := ih hobjRest m sf av s (by simpa using hget) hlook hmem hperm
        (i + 1) (checkStatementObj i f r)
      refine ⟨r', ?_, hv, ?_⟩
      · simp only [checkStatements, checkStatement_obj, Bind.bind, Except.bind]
        exact hr'
      · have harith : i + (m + 1) + 1 = i + 1 + m + 1 := by omega
        rw [harith]
        exact hm

theorem validateBody_obj_of_stmt (kvs : List (String × Json)) (sv : Json)
    (h : lookupKey kvs "Statement" = some sv) :
    validateBody (Json.obj kvs) =
      checkStatements 0 (toSeq sv) (initReport (hasKey kvs "Version")) := by
  have hS : hasKey kvs "Statement" = true := by
    rw [hasKey_eq_isSome, h]
    rfl
  simp [validateBody, pyContains, pyIndex, Bind.bind, Except.bind, initReport, hS, h]

theorem validateBody_obj_no_stmt (kvs : List (String × Json))
    (h : hasKey kvs "Statement" = false) :
    validateBody (Json.obj kvs) =
      .ok { valid := false,
            issues := (initReport (hasKey kvs "Version")).issues ++
              ["Missing 'Statement' field in policy"],
            recommendations := (initReport (hasKey kvs "Version")).recommendations } := by
  simp [validateBody, pyContains, Bind.bind, Except.bind, h, initReport, apply_ite,
    pure, Except.pure]

/-! Claim theorems. -/

/-- Counterexample to claim C2 as stated: the policy
`\x7b"Version": "2012-10-17", "Statement": []\x7d` decodes, has a `Version`
key, and its `Statement` normalizes to zero statements, yet the validator
reports `valid = true` with zero issues — not a structural violation. -/
theorem C2_counterexample_empty_statements_valid :
    validate_policy (.parsed (Json.obj
      [("Version", Json.str "2012-10-17"), ("Statement", Json.arr [])])) =
    { valid := true, issues := [], recommendations := [] } := by
  rfl

/-- Claim C2, amended: for every decoded policy object with a `Version` key
whose `Statement` key holds an empty list, the statement loop runs zero
times and the validator returns `valid = true` with zero issues and zero
recommendations; the spec's zero-statements invariant is not enforced by
the code. -/
theorem C2_amended_empty_statements_report_valid
    (kvs : List (String × Json))
    (hver : hasKey kvs "Version" = true)
    (hstmt : lookupKey kvs "Statement" = some (Json.arr [])) :
    validate_policy (.parsed (Json.obj kvs)) =
      { valid := true, issues := [], recommendations := [] } := by
  have hb : validateBody (Json.obj kvs) =
      .ok { valid := true, issues := [], recommendations := [] } := by
    rw [validateBody_obj_of_stmt kvs (Json.arr []) hstmt]
    simp [toSeq, checkStatements, initReport, hver]
  simp [validate_policy, hb]

theorem C2_amended_witness :
    hasKey [("Version", Json.str "2012-10-17"), ("Statement", Json.arr [])] "Version" = true ∧
    validate_policy (.parsed (Json.obj
      [("Version", Json.str "2012-10-17"), ("Statement", Json.arr [])])) =
      { valid := true, issues := [], recommendations := [] } :=
  ⟨by decide,
   C2_amended_empty_statements_report_valid
     [("Version", Json.str "2012-10-17"), ("Statement", Json.arr [])]
     (by decide) (by rfl)⟩

/-- Counterexample to claim C3 as stated: the empty policy object decodes
and lacks `Statement`, but the report carries two issues (the missing
`Version` issue precedes the missing `Statement` issue), not exactly one;
the issue text is also "Missing 'Statement' field in policy". -/
theorem C3_counterexample_two_issues :
    validate_policy (.parsed (Json.obj [])) =
      { valid := false,
        issues := ["Missing 'Version' field in policy", "Missing 'Statement' field in policy"],
        recommendations := ["Add 'Version': '2012-10-17' to the policy"] } := by
  rfl

/-- Claim C3, amended: for every decoded policy object that has a `Version`
key but lacks the `Statement` key, the validator returns `valid = false`
with exactly one issue — the literal string
"Missing 'Statement' field in policy" — and no recommendations; the return
is immediate, so no per-statement issue can appear. Without the `Version`
key the missing-Version issue is also present, so "exactly one issue" holds
only under this amendment. -/
theorem C3_amended_missing_statement_short_circuit
    (kvs : List (String × Json))
    (hver : hasKey kvs "Version" = true)
    (hstmt : hasKey kvs "Statement" = false) :
    validate_policy (.parsed (Json.obj kvs)) =
      { valid := false,
        issues := ["Missing 'Statement' field in policy"],
        recommendations := [] } := by
  have hb := validateBody_obj_no_stmt kvs hstmt
  rw [hver] at hb
  simp [validate_policy, hb, initReport]

theorem C3_amended_witness :
    hasKey [("Version", Json.str "2012-10-17")] "Version" = true ∧
    validate_policy (.parsed (Json.obj [("Version", Json.str "2012-10-17")])) =
      { valid := false,
        issues := ["Missing 'Statement' field in policy"],
        recommendations := [] } :=
  ⟨by decide,
   C3_amended_missing_statement_short_circuit
     [("Version", Json.str "2012-10-17")] (by decide) (by decide)⟩

/-- Claim C4: on the policy
`\x7b"Statement":[\x7b"Effect":"Allow","Action":"iam:*","Resource":"*"\x7d]\x7d`
the validator reports `valid = false` with exactly the three distinct issues
(missing Version, overly permissive `iam:*` in statement 1, wildcard
resource in statement 1) and four recommendations, the last being the
missing-condition recommendation for statement 1. -/
theorem C4_scenario_report :
    validate_policy (.parsed (Json.obj
      [("Statement", Json.arr [Json.obj
        [("Effect", Json.str "Allow"),
         ("Action", Json.str "iam:*"),
         ("Resource", Json.str "*")]])])) =
      { valid := false,
        issues :=
          ["Missing 'Version' field in policy",
           "Statement 1 contains overly permissive action: iam:*",
           "Statement 1 applies to all resources ('*')"],
        recommendations :=
          ["Add 'Version': '2012-10-17' to the policy",
           "Replace 'iam:*' with specific actions needed for the use case",
           "Specify exact resource ARNs instead of using '*'",
           "Consider adding conditions to Statement 1 for additional security"] } := by
  rfl

/-- Claim C5: action matching is exact string equality. For every decoded
policy object whose statement list consists of dict statements, a statement
whose action list contains the literal string "s3:*" forces `valid = false`
and the indexed overly-permissive issue into the final report; and the
overly-permissive loop leaves the report untouched when the action list is
exactly `["s3:GetObject"]` (no prefix matching against the `s3:*` entry). -/
theorem C5_exact_match_semantics :
    (∀ (kvs : List (String × Json)) (stmts : List Json) (n : Nat)
        (sf : List (String × Json)) (av : Json),
      lookupKey kvs "Statement" = some (Json.arr stmts) →
      (∀ s ∈ stmts, ∃ f, s = Json.obj f) →
      stmts.get? n = some (Json.obj sf) →
      lookupKey sf "Action" = some av →
      Json.str "s3:*" ∈ toSeq av →
      (validate_policy (.parsed (Json.obj kvs))).valid = false ∧
        ("Statement " ++ toString (n + 1) ++ " contains overly permissive action: " ++ "s3:*")
          ∈ (validate_policy (.parsed (Json.obj kvs))).issues) ∧
    (∀ (i : Nat) (r : Report), permissivePass i [Json.str "s3:GetObject"] r = r) := by
  constructor
  · intro kvs stmts n sf av hlook hobj hget hact hmem
    obtain ⟨r', hr', hv, hm⟩ := checkStatements_trigger stmts hobj n sf av "s3:*"
      hget hact hmem (by decide) 0 (initReport (hasKey kvs "Version"))
    have hb : validateBody (Json.obj kvs) = .ok r' := by
      rw [validateBody_obj_of_stmt kvs (Json.arr stmts) hlook]
      simpa [toSeq] using hr'
    have harith : (0 : Nat) + n + 1 = n + 1 := by omega
    rw [harith] at hm
    constructor
    · simp [validate_policy, hb, hv]
    · simp only [validate_policy, hb]
      exact hm
  · intro i r
    rfl

def c5kvs : List (String × Json) :=
  [("Version", Json.str "2012-10-17"),
   ("Statement", Json.arr [Json.obj
     [("Action", Json.arr [Json.str "s3:*"]),
      ("Resource", Json.str "arn:aws:s3:::b")]])]

theorem C5_witness :
    ((validate_policy (.parsed (Json.obj c5kvs))).valid = false ∧
      ("Statement " ++ toString (0 + 1) ++ " contains overly permissive action: " ++ "s3:*")
        ∈ (validate_policy (.parsed (Json.obj c5kvs))).issues) ∧
    permissivePass 0 [Json.str "s3:GetObject"]
      { valid := true, issues := [], recommendations := [] } =
      { valid := true, issues := [], recommendations := [] } :=
  ⟨C5_exact_match_semantics.1 c5kvs
      [Json.obj [("Action", Json.arr [Json.str "s3:*"]), ("Resource", Json.str "arn:aws:s3:::b")]]
      0
      [("Action", Json.arr [Json.str "s3:*"]), ("Resource", Json.str "arn:aws:s3:::b")]
      (Json.arr [Json.str "s3:*"])
      (by rfl)
      (by intro s hs; exact ⟨_, List.mem_singleton.mp hs⟩)
      (by rfl)
      (by rfl)
      (by simp [toSeq]),
   C5_exact_match_semantics.2 0 { valid := true, issues := [], recommendations := [] }⟩

def c6policy : Json :=
  Json.obj [("Version", Json.str "2012-10-17"),
    ("Statement", Json.arr [Json.obj
      [("Effect", Json.str "Allow"),
       ("Action", Json.arr [Json.str "kms:Decrypt"]),
       ("Resource", Json.str "arn:aws:s3:::b")]])]

/-- Claim C6: a sensitive action produces the indexed issue and the review
recommendation, but the sensitive-action loop never changes the valid flag;
a policy whose only findings are a sensitive action and a missing condition
still yields `valid = true`. -/
theorem C6_sensitive_actions_warn_only :
    (∀ (i : Nat) (acts : List Json) (r : Report),
      (sensitivePass i acts r).valid = r.valid) ∧
    (∀ (i : Nat) (acts : List Json) (s : String) (r : Report),
      Json.str s ∈ acts → s ∈ sensitive_actions →
      ("Statement " ++ toString (i + 1) ++ " contains sensitive action: " ++ s)
        ∈ (sensitivePass i acts r).issues ∧
      ("Review if '" ++ s ++ "' is absolutely necessary and consider adding conditions")
        ∈ (sensitivePass i acts r).recommendations) ∧
    (validate_policy (.parsed c6policy) =
      { valid := true,
        issues := ["Statement 1 contains sensitive action: kms:Decrypt"],
        recommendations :=
          ["Review if 'kms:Decrypt' is absolutely necessary and consider adding conditions",
           "Consider adding conditions to Statement 1 for additional security"] }) := by
  refine ⟨fun i acts r => sensitivePass_valid i acts r, ?_, rfl⟩
  intro i acts s r hmem hsens
  exact sensitivePass_trigger i acts s hmem hsens r

theorem C6_witness :
    ("Statement " ++ toString (0 + 1) ++ " contains sensitive action: " ++ "kms:Decrypt")
      ∈ (sensitivePass 0 [Json.str "kms:Decrypt"]
          { valid := true, issues := [], recommendations := [] }).issues ∧
    ("Review if '" ++ "kms:Decrypt" ++ "' is absolutely necessary and consider adding conditions")
      ∈ (sensitivePass 0 [Json.str "kms:Decrypt"]
          { valid := true, issues := [], recommendations := [] }).recommendations :=
  C6_sensitive_actions_warn_only.2.1 0 [Json.str "kms:Decrypt"] "kms:Decrypt"
    { valid := true, issues := [], recommendations := [] }
    (List.mem_singleton.mpr rfl) (by decide)

/-- Claim C7: the validator never raises. A string input that fails JSON
decoding yields the fixed parse-failure report (exactly one issue and one
generic recommendation); any decoded value on which the analysis body
raises internally yields the "Validation error" report of the same shape;
and when the body completes, its report is returned unchanged — so every
input maps to a well-formed report. -/
theorem C7_validator_never_raises :
    (validate_policy .badString =
      { valid := false, issues := ["Invalid JSON format"],
        recommendations := ["Check the policy syntax for errors"] }) ∧
    (∀ (j : Json) (e : PyErr), validateBody j = .error e →
      validate_policy (.parsed j) =
        { valid := false, issues := ["Validation error: " ++ e.message],
          recommendations := ["Review the policy structure"] }) ∧
    (∀ (j : Json) (rep : Report), validateBody j = .ok rep →
      validate_policy (.parsed j) = rep) := by
  refine ⟨rfl, ?_, ?_⟩
  · intro j e h
    simp [validate_policy, h]
  · intro j rep h
    simp [validate_policy, h]

theorem C7_witness :
    (validateBody (Json.num 5) =
      .error (PyErr.typeError "argument of type 'int' is not iterable")) ∧
    (validate_policy (.parsed (Json.num 5)) =
      { valid := false,
        issues := ["Validation error: " ++
          (PyErr.typeError "argument of type 'int' is not iterable").message],
        recommendations := ["Review the policy structure"] }) ∧
    (validate_policy (.parsed (Json.obj [])) =
      { valid := false,
        issues := ["Missing 'Version' field in policy", "Missing 'Statement' field in policy"],
        recommendations := ["Add 'Version': '2012-10-17' to the policy"] }) :=
  ⟨rfl,
   C7_validator_never_raises.2.1 (Json.num 5)
     (PyErr.typeError "argument of type 'int' is not iterable") rfl,
   C7_validator_never_raises.2.2 (Json.obj [])
     { valid := false,
       issues := ["Missing 'Version' field in policy", "Missing 'Statement' field in policy"],
       recommendations := ["Add 'Version': '2012-10-17' to the policy"] } rfl⟩

/-- Claim C8: validation is deterministic and idempotent at the call level —
two calls of `validate_policy` on the same input produce reports that agree
on the valid flag, the issues sequence and the recommendations sequence.
The embedded validator is a pure function of its input: the source routine
writes only to the per-call `results` dictionary, and the two fixed rule
lists are never mutated. -/
theorem C8_validation_deterministic (input : PolicyInput) (r1 r2 : Report)
    (h1 : r1 = validate_policy input) (h2 : r2 = validate_policy input) :
    r1.valid = r2.valid ∧ r1.issues = r2.issues ∧
      r1.recommendations = r2.recommendations := by
  subst h1
  subst h2
  exact ⟨rfl, rfl, rfl⟩

theorem C8_witness :
    (Report.mk false ["Invalid JSON format"] ["Check the policy syntax for errors"]).valid =
      (validate_policy .badString).valid ∧
    (Report.mk false ["Invalid JSON format"] ["Check the policy syntax for errors"]).issues =
      (validate_policy .badString).issues ∧
    (Report.mk false ["Invalid JSON format"] ["Check the policy syntax for errors"]).recommendations =
      (validate_policy .badString).recommendations :=
  C8_validation_deterministic .badString
    (Report.mk false ["Invalid JSON format"] ["Check the policy syntax for errors"])
    (validate_policy .badString) rfl rfl

theorem validateBody_inv (j : Json) (rep : Report)
    (hb : validateBody j = .ok rep) (hv : rep.valid = false) : rep.issues ≠ [] := by
  have hInv : ∀ b : Bool, (initReport b).valid = false → (initReport b).issues ≠ [] := by
    intro b
    cases b <;> simp [initReport]
  unfold validateBody at hb
  cases hcV : pyContains "Version" j with
  | error e =>
    rw [hcV] at hb
    simp [Bind.bind, Except.bind] at hb
  | ok hasVer =>
    rw [hcV] at hb
    simp only [Bind.bind, Except.bind] at hb
    cases hcS : pyContains "Statement" j with
    | error e =>
      rw [hcS] at hb
      simp [Except.bind] at hb
    | ok hasStmt =>
      rw [hcS] at hb
      simp only [Except.bind] at hb
      cases hasStmt with
      | true =>
        simp only [if_true] at hb
        cases hcI : pyIndex j "Statement" with
        | error e =>
          rw [hcI] at hb
          simp [Except.bind] at hb
        | ok sv =>
          rw [hcI] at hb
          simp only [Except.bind] at hb
          exact (reportExt_checkStatements (toSeq sv) 0 (initReport hasVer) rep hb).2.2.2
            (hInv hasVer) hv
      | false =>
        simp only [Bool.false_eq_true, if_false, pure, Except.pure, Except.ok.injEq] at hb
        rw [← hb]
        simp

def c9policy : Json :=
  Json.obj [("Version", Json.str "2012-10-17"),
    ("Statement", Json.arr [Json.obj
      [("Effect", Json.str "Allow"),
       ("Action", Json.str "iam:CreateUser"),
       ("Resource", Json.str "arn:aws:iam::123456789012:user/x"),
       ("Condition", Json.obj [])]])]

/-- Claim C9: whenever a returned report has `valid = false` its issues list
is non-empty (every invalidating path, including the decode-failure and
internal-error paths, appends an issue), while the converse fails: the
concrete policy `c9policy` whose only finding is a sensitive action yields
`valid = true` with a non-empty issues list. -/
theorem C9_invalid_implies_issue :
    (∀ input : PolicyInput, (validate_policy input).valid = false →
      (validate_policy input).issues ≠ []) ∧
    ((validate_policy (.parsed c9policy)).valid = true ∧
      (validate_policy (.parsed c9policy)).issues ≠ []) := by
  constructor
  · intro input hv
    cases input with
    | badString => simp [validate_policy]
    | parsed j =>
      cases hb : validateBody j with
      | error e => simp [validate_policy, hb]
      | ok rep =>
        simp only [validate_policy, hb] at hv ⊢
        exact validateBody_inv j rep hb hv
  · exact ⟨rfl, by decide⟩

theorem C9_witness :
    (validate_policy (.parsed (Json.obj []))).valid = false ∧
    (validate_policy (.parsed (Json.obj []))).issues ≠ [] :=
  ⟨rfl, C9_invalid_implies_issue.1 (.parsed (Json.obj [])) rfl⟩

def c1text : String :=
  "```json\n\x7boops\n```\n\x7b\"Version\": \"1\", \"Statement\": []\x7d"

def c1doc : String := "\x7b\"Version\": \"1\", \"Statement\": []\x7d"

/-- Counterexample to claim C1 as stated: in `c1text` the first fenced json
block holds the malformed content (its strip fails JSON parsing), and the
text is followed by a brace-delimited Version/Statement document that the
heuristic strategy does match and that parses — yet the extractor returns
`None`: the `json.loads` exception escapes to the bare `except` before
strategy 2 is ever tried, so the extraction does not succeed. -/
theorem C1_counterexample_malformed_fence_blocks_fallback :
    (fencedRaw c1text.data).map (fun g => String.mk (pyStrip g)) = some "\x7boops" ∧
    jsonOk "\x7boops".data = false ∧
    (braceRaw c1text.data).map (fun g => String.mk (pyStrip g)) = some c1doc ∧
    jsonOk c1doc.data = true ∧
    extract_policy_from_text c1text = none :=
  ⟨rfl, rfl, rfl, rfl, rfl⟩

/-- Claim C1, amended: when the first fenced json block is found but its
content fails strict JSON parsing, `extract_policy_from_text` returns `None`
immediately — the parse exception aborts the whole call, so the heuristic
brace-scan strategy is never reached (it runs only when no fenced block is
found at all). -/
theorem C1_amended_malformed_fence_returns_none (t : String) (g : List Char)
    (hf : fencedRaw t.data = some g) (hbad : jsonOk (pyStrip g) = false) :
    extract_policy_from_text t = none := by
  simp [extract_policy_from_text, hf, hbad]

theorem C1_amended_witness :
    fencedRaw c1text.data = some "\n\x7boops\n".data ∧
    jsonOk (pyStrip "\n\x7boops\n".data) = false ∧
    extract_policy_from_text c1text = none :=
  ⟨rfl, rfl, C1_amended_malformed_fence_returns_none c1text "\n\x7boops\n".data rfl rfl⟩

/-- Claim C10: the extractor returns either `None` or a string it has
successfully passed through `json.loads` — every returned candidate is
checked before the `return`, so a non-`None` result is always syntactically
valid JSON for the caller. -/
theorem C10_extract_returns_valid_json (t s : String)
    (h : extract_policy_from_text t = some s) : jsonOk s.data = true := by
  unfold extract_policy_from_text at h
  cases hf : fencedRaw t.data with
  | some g =>
    rw [hf] at h
    by_cases hj : jsonOk (pyStrip g)
    · simp only [hj, if_true, Option.some.injEq] at h
      rw [← h]
      exact hj
    · simp [hj] at h
  | none =>
    rw [hf] at h
    cases hb : braceRaw t.data with
    | some g =>
      rw [hb] at h
      by_cases hj : jsonOk (pyStrip g)
      · simp only [hj, if_true, Option.some.injEq] at h
        rw [← h]
        exact hj
      · simp [hj] at h
    | none =>
      rw [hb] at h
      simp at h

def c10text : String := "```json\n\x7b\"a\": 1\x7d\n```"

theorem C10_witness :
    extract_policy_from_text c10text = some "\x7b\"a\": 1\x7d" ∧
    jsonOk ("\x7b\"a\": 1\x7d" : String).data = true :=
  ⟨rfl, C10_extract_returns_valid_json c10text "\x7b\"a\": 1\x7d" rfl⟩
